import Mathlib

/-!
Verification development for the Telegram-Utilities repository.

The repository has two scripts:
* `tg_chat_backup.py` — a resumable message-mirroring loop
  (`TelegramChatBackup.backup_chat`) with JSON progress persistence
  (`load_last_message_id` / `save_last_message_id`);
* `tg_video_uploader.py` — a manifest-driven video download/upload runner
  (`parse_manifest`, `process_video`, `main`).

Below, the relevant parts of both scripts are shallowly embedded as pure Lean
functions.  External effects (the Telegram client, the filesystem, randomness)
are abstracted as explicit inputs: each batch iteration receives the jitter
value that `random.randint(12, 20)` would have produced and the outcome the
client call would have had, and the resulting side effects are recorded as an
explicit event trace.
-/

namespace ChatBackup

/-- `BATCH_SIZE = 20` in `tg_chat_backup.py`. -/
def BATCH_SIZE : Nat := 20

/-- `FETCH_LIMIT = 500` in `tg_chat_backup.py`. -/
def FETCH_LIMIT : Nat := 500

/-- `RETRY_DELAY = 70` in `tg_chat_backup.py`. -/
def RETRY_DELAY : Nat := 70

/-- The media payload of a fetched message, as distinguished by the
`isinstance` checks in `backup_chat` (lines 109–118): a live geo location,
a webpage preview whose `webpage` object may or may not carry a `url`
attribute, or any other media kind (which is forwarded via `send_file`). -/
inductive Media where
  | geoLive : Media
  | webPage (url : Option String) : Media
  | other : Media
deriving DecidableEq, Repr

/-- One entry of the in-memory `messages` list built by `backup_chat`
(line 88): `messages.append((message.id, formatted_msg, message.media))`. -/
structure MsgRec where
  id : Nat
  formatted : String
  media : Option Media
deriving DecidableEq, Repr

/-- The outcome of the `try` block sending one batch (lines 103–122):
either every client call in the block succeeds, or a call raises
`errors.FloodWaitError` carrying `e.seconds`, or a call raises a generic
`errors.RPCError`. -/
inductive SendOutcome where
  | ok : SendOutcome
  | floodWait (seconds : Nat) : SendOutcome
  | rpcError : SendOutcome
deriving DecidableEq, Repr

/-- Observable effects of the batch loop, recorded in program order:
successful `client.send_message` calls, failed send attempts (the call that
raised), `client.send_file` calls, `save_last_message_id` calls, and sleeps
(`time.sleep` / `asyncio.sleep`). -/
inductive Event where
  | sendText (s : String) : Event
  | sendFailed (s : String) : Event
  | sendFile : Event
  | save (lastId : Nat) (total : Nat) : Event
  | sleep (seconds : Nat) : Event
deriving DecidableEq, Repr

/-- Python's `range(start, stop, step)` for a positive step, by structural
recursion on a fuel bound: the indices `start, start+step, …` that are
`< stop`. -/
def pyRangeAux (fuel start stop step : Nat) : List Nat :=
  match fuel with
  | 0 => []
  | fuel + 1 =>
      if 0 < step ∧ start < stop then
        start :: pyRangeAux fuel (start + step) stop step
      else
        []

/-- Python's `range(start, stop, step)` for a positive step: `stop - start`
fuel suffices because each recursive call advances `start` by at least 1. -/
def pyRange (start stop step : Nat) : List Nat :=
  pyRangeAux (stop - start) start stop step

/-- The batch partition of `backup_chat` (lines 98–100):
`for i in range(0, total_messages, BATCH_SIZE): batch = messages[i : i + BATCH_SIZE]`.
Python's slice `l[i : i + B]` is `(l.drop i).take B`. -/
def toBatches (msgs : List MsgRec) (B : Nat) : List (List MsgRec) :=
  (pyRange 0 msgs.length B).map (fun i => (msgs.drop i).take B)

/-- Reference chunking function: repeatedly split off the first `B`
elements.  Proved equal to `toBatches` below. -/
def chunks (B : Nat) (l : List MsgRec) : List (List MsgRec) :=
  if _h : B = 0 ∨ l = [] then []
  else l.take B :: chunks B (l.drop B)
termination_by l.length
decreasing_by
  rcases l with _ | ⟨a, l⟩
  · simp at _h
  · simp only [List.length_drop, List.length_cons]
    omega

/-- `batch_texts = "\n".join(msg[1] for msg in batch)` (line 101). -/
def batchTexts (batch : List MsgRec) : String :=
  String.intercalate "\n" (batch.map (·.formatted))

/-- `last_msg_id = batch[-1][0]` (line 102); every batch produced by the
loop is non-empty, so the default value 0 is never used there. -/
def lastIdOf (batch : List MsgRec) : Nat :=
  match batch.getLast? with
  | some m => m.id
  | none => 0

/-- The follow-up sends for one record of a successfully sent batch
(lines 106–118): if the record has media, first the generic
`[Media from <id>]` notice, then the type-specific message or file. -/
def mediaFollowups (m : MsgRec) : List Event :=
  match m.media with
  | none => []
  | some med =>
    Event.sendText ("[Media from " ++ toString m.id ++ "]") ::
      match med with
      | Media.geoLive =>
          [Event.sendText ("📍 Live Location shared at message " ++ toString m.id)]
      | Media.webPage (some url) =>
          [Event.sendText ("🌐 Webpage shared: " ++ url)]
      | Media.webPage none =>
          [Event.sendText ("🌐 Webpage preview at message " ++ toString m.id)]
      | Media.other => [Event.sendFile]

/-- One iteration of the inner batch loop (lines 99–132), given the jitter
`j` drawn at line 99 (`DELAY_BETWEEN_BATCHES = random.randint(12, 20)`) and
the outcome `o` of the `try` block.  Returns the event trace of the
iteration and the `offset_id` after it.  On success the batch text and all
media follow-ups are sent, progress is saved and the offset advances; on
`FloodWaitError` the code sleeps `e.seconds + DELAY_BETWEEN_BATCHES`; on
`RPCError` it sleeps `RETRY_DELAY`; in every case the iteration ends with
the unconditional `asyncio.sleep(DELAY_BETWEEN_BATCHES)` of line 132 and
the `for` loop then moves on to the next slice. -/
def batchIter (batch : List MsgRec) (j : Nat) (o : SendOutcome)
    (offset total : Nat) : List Event × Nat :=
  match o with
  | SendOutcome.ok =>
      (Event.sendText (batchTexts batch) ::
        (batch.flatMap mediaFollowups ++
          [Event.save (lastIdOf batch) total, Event.sleep j]),
        lastIdOf batch)
  | SendOutcome.floodWait w =>
      ([Event.sendFailed (batchTexts batch), Event.sleep (w + j), Event.sleep j],
        offset)
  | SendOutcome.rpcError =>
      ([Event.sendFailed (batchTexts batch), Event.sleep RETRY_DELAY, Event.sleep j],
        offset)

/-- The inner batch loop over the batches of one fetch, with `sched k`
supplying the jitter and outcome of the `k`-th batch iteration.  Returns
the concatenated trace and the final `offset_id`.  `total_processed` does
not change inside the loop (it is only incremented at line 133, after the
loop). -/
def runBatches (bs : List (List MsgRec)) (sched : Nat → Nat × SendOutcome)
    (k offset total : Nat) : List Event × Nat :=
  match bs with
  | [] => ([], offset)
  | b :: rest =>
      let r1 := batchIter b (sched k).1 (sched k).2 offset total
      let r2 := runBatches rest sched (k + 1) r1.2 total
      (r1.1 ++ r2.1, r2.2)

/-- One outer `while True` round of `backup_chat` that fetched `msgs`:
the environment of the round is the fetched message list and the
jitter/outcome schedule of its batch iterations. -/
structure FetchRound where
  msgs : List MsgRec
  sched : Nat → Nat × SendOutcome

/-- One outer iteration of `backup_chat` (lines 78–134) on a non-empty
fetch: run the batch loop over `toBatches msgs BATCH_SIZE`, then
`total_processed += total_messages` (line 133). -/
def runRound (r : FetchRound) (offset total : Nat) : List Event × Nat × Nat :=
  let rb := runBatches (toBatches r.msgs BATCH_SIZE) r.sched 0 offset total
  (rb.1, rb.2, total + r.msgs.length)

/-- The outer loop of `backup_chat` over a finite sequence of fetch
rounds: an empty fetch breaks out of the loop (lines 90–92); otherwise the
round runs and the loop continues with the advanced offset and counter. -/
def runLoop (rounds : List FetchRound) (offset total : Nat) :
    List Event × Nat × Nat :=
  match rounds with
  | [] => ([], offset, total)
  | r :: rest =>
      if r.msgs = [] then ([], offset, total)
      else
        let rr := runRound r offset total
        let rl := runLoop rest rr.2.1 rr.2.2
        (rr.1 ++ rl.1, rl.2)

/-- The `(last_message_id, total_processed)` pairs passed to
`save_last_message_id`, in trace order. -/
def savedEntries (tr : List Event) : List (Nat × Nat) :=
  match tr with
  | [] => []
  | Event.save i t :: rest => (i, t) :: savedEntries rest
  | _ :: rest => savedEntries rest

/-- The persisted `last_message_id` values, in trace order. -/
def savedIds (tr : List Event) : List Nat :=
  (savedEntries tr).map Prod.fst

/-- The last ids of the batches whose iteration outcome is `ok`, in order:
exactly the batches for which `save_last_message_id` runs. -/
def okLastIds (bs : List (List MsgRec)) (sched : Nat → Nat × SendOutcome)
    (k : Nat) : List Nat :=
  match bs with
  | [] => []
  | b :: rest =>
      match (sched k).2 with
      | SendOutcome.ok => lastIdOf b :: okLastIds rest sched (k + 1)
      | _ => okLastIds rest sched (k + 1)

/-- The `(last_message_id, total_processed)` pairs that the run is expected
to persist: per round, one pair per `ok` batch carrying the round's *entry*
value of `total_processed`; the counter then grows by the round's fetch
size for the following rounds.  Mirrors the break on an empty fetch. -/
def expectedSaves (rounds : List FetchRound) (total : Nat) : List (Nat × Nat) :=
  match rounds with
  | [] => []
  | r :: rest =>
      if r.msgs = [] then []
      else
        (okLastIds (toBatches r.msgs BATCH_SIZE) r.sched 0).map (fun i => (i, total))
          ++ expectedSaves rest (total + r.msgs.length)

/-- The persisted `last_message_id` values the run is expected to produce:
per round, the last ids of its `ok` batches, in order. -/
def expectedIds (rounds : List FetchRound) : List Nat :=
  match rounds with
  | [] => []
  | r :: rest =>
      if r.msgs = [] then []
      else okLastIds (toBatches r.msgs BATCH_SIZE) r.sched 0 ++ expectedIds rest

/-- The `offset_id` after the batch loop of one round (it does not depend
on `total_processed`, proved below). -/
def roundOffset (r : FetchRound) (offset : Nat) : Nat :=
  (runBatches (toBatches r.msgs BATCH_SIZE) r.sched 0 offset 0).2

/-- What the Telegram client guarantees about `iter_messages(…, reverse=True,
offset_id=o)`: each fetched page is strictly ascending in message id and
contains only messages with id strictly greater than the offset used for
the fetch.  Stated round by round along the run. -/
def Admissible : Nat → List FetchRound → Prop
  | _, [] => True
  | offset, r :: rest =>
      r.msgs.Pairwise (fun a b => a.id < b.id) ∧
      (∀ m ∈ r.msgs, offset < m.id) ∧
      Admissible (roundOffset r offset) rest

/-- A concrete fetch of 21 messages (ids 1–21): two batches of sizes 20
and 1 under `BATCH_SIZE = 20`. -/
def cexMsgs : List MsgRec :=
  (List.range 21).map (fun i => ⟨i + 1, "m" ++ toString (i + 1), none⟩)

/-- A concrete schedule where the first batch hits `FloodWaitError` with
`e.seconds = 30` and jitter 15, and every later batch succeeds with
jitter 12. -/
def cexFloodSched : Nat → Nat × SendOutcome :=
  fun k => if k = 0 then (15, SendOutcome.floodWait 30) else (12, SendOutcome.ok)

/-- A concrete schedule where the first batch hits a generic `RPCError`
with jitter 12, and every later batch succeeds with jitter 12. -/
def cexRpcSched : Nat → Nat × SendOutcome :=
  fun k => if k = 0 then (12, SendOutcome.rpcError) else (12, SendOutcome.ok)

/-- The first batch of `cexMsgs` (ids 1–20). -/
def cexBatch0 : List MsgRec := cexMsgs.take 20

/-- The second batch of `cexMsgs` (id 21 alone). -/
def cexBatch1 : List MsgRec := cexMsgs.drop 20

/-- The trace of the round in which the first batch is rate-limited. -/
def cexFloodTrace : List Event :=
  (runRound ⟨cexMsgs, cexFloodSched⟩ 0 0).1

/-- The trace of the round in which the first batch hits an `RPCError`. -/
def cexRpcTrace : List Event :=
  (runRound ⟨cexMsgs, cexRpcSched⟩ 0 0).1

/-- Whether an event is a send attempt (successful or failed) of the given
text — what "resending the batch" means observationally. -/
def isSendOf (t : String) (e : Event) : Bool :=
  e == Event.sendText t || e == Event.sendFailed t

/-- A JSON value as far as the progress file is concerned. -/
inductive JVal where
  | jnull : JVal
  | jint (n : Int) : JVal
  | jstr (s : String) : JVal
deriving DecidableEq, Repr

/-- The state of `backup_progress.json` on disk: absent
(`FileNotFoundError`), present but not parseable as JSON
(`json.JSONDecodeError`), or a parsed JSON object given by its key/value
pairs (`data.get` looks keys up there). -/
inductive FileState where
  | missing : FileState
  | notJson : FileState
  | obj (fields : List (String × JVal)) : FileState
deriving DecidableEq, Repr

/-- Python's `dict.get(key, None)` on the parsed object, returning the
stored value or `None`. -/
def dictGet (fields : List (String × JVal)) (key : String) : Option JVal :=
  match fields.find? (fun kv => kv.1 = key) with
  | some kv => some kv.2
  | none => none

/-- `TelegramChatBackup.load_last_message_id` (lines 51–60): open and parse
the progress file, read `last_message_id` and `total_processed` with
default `None`; a missing or unparseable file yields `(None, None)` via the
`except (FileNotFoundError, json.JSONDecodeError)` handler. -/
def load_last_message_id (fs : FileState) : Option JVal × Option JVal :=
  match fs with
  | FileState.missing => (none, none)
  | FileState.notJson => (none, none)
  | FileState.obj fields =>
      (dictGet fields "last_message_id", dictGet fields "total_processed")

/-- `TelegramChatBackup.save_last_message_id` (lines 62–65): overwrite the
progress file with
`{"last_message_id": message_id, "total_processed": total_processed}`. -/
def save_last_message_id (message_id total_processed : Int) : FileState :=
  FileState.obj
    [("last_message_id", JVal.jint message_id),
     ("total_processed", JVal.jint total_processed)]

end ChatBackup

namespace Uploader

/-- Python's `str.strip()`: remove leading and trailing whitespace. -/
def pyStrip (s : String) : String :=
  String.mk
    (((s.data.dropWhile Char.isWhitespace).reverse.dropWhile Char.isWhitespace).reverse)

/-- `URL_RE = re.compile(r'https?://', re.I)`; `URL_RE.match(url)` checks a
case-insensitive `http://` or `https://` prefix. -/
def urlMatch (s : String) : Bool :=
  List.isPrefixOf "http://".data (s.data.map Char.toLower) ||
    List.isPrefixOf "https://".data (s.data.map Char.toLower)

/-- A parsed manifest entry `(url, title, thumb_ts, end_ts)` as produced by
`parse_manifest` (line 86). -/
structure Entry where
  url : String
  title : Option String
  thumb_ts : Option String
  end_ts : Option String
deriving DecidableEq, Repr

/-- The optional field at index `k` of the remainder of the row, following
`row[i].strip() if len(row) > i and row[i].strip() else None`: present and
non-blank after stripping, else `None`. -/
def optField (rest : List String) (k : Nat) : Option String :=
  match rest.get? k with
  | some s => if pyStrip s = "" then none else some (pyStrip s)
  | none => none

/-- The per-row body of `parse_manifest` (lines 77–86): skip an empty row,
strip the first field and require it to match `URL_RE`, then read up to
three optional stripped fields. -/
def parseRow (row : List String) : Option Entry :=
  match row with
  | [] => none
  | first :: rest =>
      let url := pyStrip first
      if urlMatch url then
        some ⟨url, optField rest 0, optField rest 1, optField rest 2⟩
      else
        none

/-- Splitting a character sequence on commas, accumulating the current
field in reverse. -/
def splitCommaAux (cs : List Char) (cur : List Char) : List String :=
  match cs with
  | [] => [String.mk cur.reverse]
  | c :: rest =>
      if c = ',' then String.mk cur.reverse :: splitCommaAux rest []
      else splitCommaAux rest (c :: cur)

/-- `csv.reader` on one manifest line without quoting: a blank line yields
an empty row, otherwise the line splits on commas. -/
def csvRow (line : String) : List String :=
  if line = "" then [] else splitCommaAux line.data []

/-- `parse_manifest` (lines 70–87) over the manifest's lines: parse each
CSV row, keeping the entries of the rows that are not skipped. -/
def parse_manifest (lines : List String) : List Entry :=
  lines.filterMap (fun line => parseRow (csvRow line))

/-- The outcome of `await asyncio.wait_for(download_video(url), ...)`
(line 228): a local file path on success, `asyncio.TimeoutError` on
timeout, or a generic exception from both the `yt_dlp` attempt and the
direct-HTTP fallback. -/
inductive DlResult where
  | ok (path : String) : DlResult
  | timeout : DlResult
  | err (msg : String) : DlResult
deriving DecidableEq, Repr

/-- The outcome of `extract_thumb_and_trim` (line 229): the processed
video and thumbnail paths, or a raised exception. -/
inductive TrimResult where
  | ok (video thumb : String) : TrimResult
  | err (msg : String) : TrimResult
deriving DecidableEq, Repr

/-- The outcome of `client.send_file` (lines 232–239): success, a raised
`FloodWaitError`/`RPCError`, or any other exception. -/
inductive UpResult where
  | ok : UpResult
  | tgErr (msg : String) : UpResult
  | otherErr (msg : String) : UpResult
deriving DecidableEq, Repr

/-- The environment of one `process_video` call: what each external step
would do if reached. -/
structure JobEnv where
  dl : DlResult
  trim : TrimResult
  up : UpResult

/-- The exceptions distinguished by the `except` clauses of
`process_video` (lines 242–250): `asyncio.TimeoutError`,
`(FloodWaitError, RPCError)`, and any other `Exception`. -/
inductive PyExc where
  | timeout : PyExc
  | tg (msg : String) : PyExc
  | other (msg : String) : PyExc
deriving DecidableEq, Repr

/-- The observable result of one `process_video` call: the log lines it
wrote, whether `client.send_file` was called, the files the download step
created, the files it unlinked in its `finally` block, and the exception
that escaped the job (none: every `except` clause above catches its class,
and the last one catches every `Exception`). -/
structure JobTrace where
  logs : List String
  uploadAttempted : Bool
  downloadCreated : List String
  deleted : List String
  uncaught : Option PyExc
deriving DecidableEq, Repr

/-- `title or ''` in the log lines: `None` and the empty string both
render as the empty string. -/
def titleOrEmpty (title : Option String) : String :=
  match title with
  | none => ""
  | some s => s

/-- The `try` body of `process_video` (lines 227–241): download, trim,
upload, then the `SUCCESS` log write.  Returns the files created by the
download step, whether upload was attempted, the final `video_path`
variable, the success log lines, and the exception raised (if any). -/
def jobBody (url : String) (title : Option String) (env : JobEnv) :
    List String × Bool × Option String × List String × Option PyExc :=
  match env.dl with
  | DlResult.timeout => ([], false, none, [], some PyExc.timeout)
  | DlResult.err m => ([], false, none, [], some (PyExc.other m))
  | DlResult.ok path =>
      match env.trim with
      | TrimResult.err m => ([path], false, some path, [], some (PyExc.other m))
      | TrimResult.ok _ _ =>
          match env.up with
          | UpResult.tgErr m => ([path], true, some path, [], some (PyExc.tg m))
          | UpResult.otherErr m => ([path], true, some path, [], some (PyExc.other m))
          | UpResult.ok =>
              ([path], true, some path,
                ["SUCCESS," ++ url ++ "," ++ titleOrEmpty title ++ "\n"], none)

/-- `process_video` (lines 220–256): run the `try` body, dispatch the
raised exception to the matching `except` clause (which writes one log
line and swallows it), then unlink `video_path` in the `finally` block
when it is set and the file exists. -/
def process_video (url : String) (title : Option String) (env : JobEnv) :
    JobTrace :=
  let (created, up, vpath, okLogs, exc) := jobBody url title env
  let excLogs : List String :=
    match exc with
    | none => []
    | some PyExc.timeout => ["TIMEOUT," ++ url ++ "," ++ titleOrEmpty title ++ "\n"]
    | some (PyExc.tg m) =>
        ["FAILED," ++ url ++ "," ++ titleOrEmpty title ++ ",Telegram:" ++ m ++ "\n"]
    | some (PyExc.other m) =>
        ["FAILED," ++ url ++ "," ++ titleOrEmpty title ++ ",Other:" ++ m ++ "\n"]
  { logs := okLogs ++ excLogs
    uploadAttempted := up
    downloadCreated := created
    deleted := match vpath with | some p => [p] | none => []
    uncaught := none }

/-- The per-entry loop of `main` (lines 277–280): `process_video` is
awaited for each manifest entry in order, with `envs i` the environment of
the `i`-th job.  Since `process_video` lets no exception escape, every
entry is processed. -/
def runAll (entries : List Entry) (envs : Nat → JobEnv) : List JobTrace :=
  match entries with
  | [] => []
  | e :: rest => process_video e.url e.title (envs 0) ::
      runAll rest (fun i => envs (i + 1))

end Uploader

/-! ## Lemmas about the batch partition -/

namespace ChatBackup

theorem pyRangeAux_map_slices (B : Nat) (hB : 0 < B) (l : List MsgRec) :
    ∀ (fuel i : Nat), l.length - i ≤ fuel →
      (pyRangeAux fuel i l.length B).map (fun j => (l.drop j).take B) =
        chunks B (l.drop i) := by
  intro fuel
  induction fuel with
  | zero =>
      intro i hle
      have hdrop : l.drop i = [] := List.drop_eq_nil_of_le (by omega)
      rw [pyRangeAux, chunks]
      simp [hdrop]
  | succ fuel ih =>
      intro i hle
      by_cases hi : i < l.length
      · have hne : l.drop i ≠ [] := by
          have : (l.drop i).length = l.length - i := List.length_drop i l
          intro hcon
          rw [hcon] at this
          simp at this
          omega
        rw [pyRangeAux, if_pos ⟨hB, hi⟩, chunks]
        rw [dif_neg (by push_neg; exact ⟨by omega, hne⟩)]
        simp only [List.map_cons, List.drop_drop]
        congr 1
        exact ih (i + B) (by omega)
      · have hdrop : l.drop i = [] := List.drop_eq_nil_of_le (by omega)
        rw [pyRangeAux, if_neg (by omega), chunks]
        simp [hdrop]

theorem toBatches_eq_chunks (msgs : List MsgRec) (B : Nat) (hB : 0 < B) :
    toBatches msgs B = chunks B msgs := by
  have h := pyRangeAux_map_slices B hB msgs msgs.length 0 (by omega)
  simpa [toBatches, pyRange] using h

theorem chunks_flatten (B : Nat) (hB : 0 < B) (l : List MsgRec) :
    (chunks B l).flatten = l := by
  generalize hn : l.length = n
  induction n using Nat.strong_induction_on generalizing l with
  | _ n ih =>
      rw [chunks]
      by_cases hl : l = []
      · simp [hl]
      · rw [dif_neg (by push_neg; exact ⟨by omega, hl⟩)]
        rw [List.flatten_cons]
        have hpos : 0 < l.length := List.length_pos.mpr hl
        have hlen : (l.drop B).length = l.length - B := List.length_drop B l
        rw [ih (l.drop B).length (by omega) (l.drop B) rfl]
        exact List.take_append_drop B l

theorem chunks_length (B : Nat) (hB : 0 < B) (l : List MsgRec) :
    (chunks B l).length = (l.length + B - 1) / B := by
  generalize hn : l.length = n
  induction n using Nat.strong_induction_on generalizing l with
  | _ n ih =>
      rw [chunks]
      by_cases hl : l = []
      · subst hl
        simp only [List.length_nil] at hn
        rw [dif_pos (Or.inr rfl), ← hn]
        have h0 : (0 + B - 1) / B = 0 := Nat.div_eq_of_lt (by omega)
        rw [h0]
        simp
      · rw [dif_neg (by push_neg; exact ⟨by omega, hl⟩)]
        have hpos : 0 < l.length := List.length_pos.mpr hl
        have hlen : (l.drop B).length = l.length - B := List.length_drop B l
        rw [List.length_cons, ih (l.drop B).length (by omega) (l.drop B) rfl, hlen, hn]
        rcases le_or_lt B n with hbn | hnb
        · have h1 : n - B + B - 1 = n - 1 := by omega
          have h2 : n + B - 1 = (n - 1) + B := by omega
          rw [h1, h2, Nat.add_div_right _ hB]
        · have h1 : n - B + B - 1 = B - 1 := by omega
          rw [h1, Nat.div_eq_of_lt (by omega)]
          have h2 : (n + B - 1) / B = 1 := by
            apply Nat.div_eq_of_lt_le
            · omega
            · omega
          rw [h2]

theorem chunks_length_le (B : Nat) (l : List MsgRec) :
    ∀ c ∈ chunks B l, c.length ≤ B := by
  generalize hn : l.length = n
  induction n using Nat.strong_induction_on generalizing l with
  | _ n ih =>
      rw [chunks]
      by_cases h : B = 0 ∨ l = []
      · simp [dif_pos h]
      · rw [dif_neg h]
        push_neg at h
        intro c hc
        rcases List.mem_cons.mp hc with hc | hc
        · subst hc
          exact List.length_take_le B l
        · have hpos : 0 < l.length := List.length_pos.mpr h.2
          have hlen : (l.drop B).length = l.length - B := List.length_drop B l
          exact ih (l.drop B).length (by omega) (l.drop B) rfl c hc

theorem chunks_ne_nil (B : Nat) (l : List MsgRec) :
    ∀ c ∈ chunks B l, c ≠ [] := by
  generalize hn : l.length = n
  induction n using Nat.strong_induction_on generalizing l with
  | _ n ih =>
      rw [chunks]
      by_cases h : B = 0 ∨ l = []
      · simp [dif_pos h]
      · rw [dif_neg h]
        push_neg at h
        intro c hc
        rcases List.mem_cons.mp hc with hc | hc
        · subst hc
          have hpos : 0 < l.length := List.length_pos.mpr h.2
          have : (l.take B).length = min B l.length := List.length_take B l
          intro hcon
          rw [hcon] at this
          simp only [List.length_nil] at this
          omega
        · have hpos : 0 < l.length := List.length_pos.mpr h.2
          have hlen : (l.drop B).length = l.length - B := List.length_drop B l
          exact ih (l.drop B).length (by omega) (l.drop B) rfl c hc

/-! ## Lemmas about the persisted progress entries of a run -/

theorem savedEntries_append (a b : List Event) :
    savedEntries (a ++ b) = savedEntries a ++ savedEntries b := by
  induction a with
  | nil => simp [savedEntries]
  | cons e rest ih =>
      cases e <;> simp [savedEntries, ih]

theorem savedEntries_mediaFollowups (m : MsgRec) :
    savedEntries (mediaFollowups m) = [] := by
  unfold mediaFollowups
  rcases m.media with _ | med
  · simp [savedEntries]
  · rcases med with _ | u | _
    · simp [savedEntries]
    · rcases u with _ | url <;> simp [savedEntries]
    · simp [savedEntries]

theorem savedEntries_flatMap_mediaFollowups (batch : List MsgRec) :
    savedEntries (batch.flatMap mediaFollowups) = [] := by
  induction batch with
  | nil => simp [savedEntries]
  | cons m rest ih =>
      rw [List.flatMap_cons, savedEntries_append, savedEntries_mediaFollowups, ih]
      rfl

theorem savedEntries_batchIter_ok (b : List MsgRec) (j offset total : Nat) :
    savedEntries (batchIter b j SendOutcome.ok offset total).1 =
      [(lastIdOf b, total)] := by
  simp [batchIter, savedEntries, savedEntries_append,
    savedEntries_flatMap_mediaFollowups]

theorem savedEntries_batchIter_floodWait (b : List MsgRec) (j w offset total : Nat) :
    savedEntries (batchIter b j (SendOutcome.floodWait w) offset total).1 = [] := by
  simp [batchIter, savedEntries]

theorem savedEntries_batchIter_rpcError (b : List MsgRec) (j offset total : Nat) :
    savedEntries (batchIter b j SendOutcome.rpcError offset total).1 = [] := by
  simp [batchIter, savedEntries]

theorem savedEntries_runBatches (bs : List (List MsgRec))
    (sched : Nat → Nat × SendOutcome) :
    ∀ k offset total, savedEntries (runBatches bs sched k offset total).1 =
      (okLastIds bs sched k).map (fun i => (i, total)) := by
  induction bs with
  | nil => intro k offset total; simp [runBatches, okLastIds, savedEntries]
  | cons b rest ih =>
      intro k offset total
      rw [runBatches, okLastIds]
      rcases ho : (sched k).2 with _ | w | _ <;>
        simp [ho, savedEntries_append, savedEntries_batchIter_ok,
          savedEntries_batchIter_floodWait, savedEntries_batchIter_rpcError, ih]

theorem runBatches_offset_total_indep (bs : List (List MsgRec))
    (sched : Nat → Nat × SendOutcome) :
    ∀ k offset total total', (runBatches bs sched k offset total).2 =
      (runBatches bs sched k offset total').2 := by
  induction bs with
  | nil => intro k offset total total'; simp [runBatches]
  | cons b rest ih =>
      intro k offset total total'
      rw [runBatches, runBatches]
      rcases ho : (sched k).2 with _ | w | _ <;> simp [batchIter, ho] <;> apply ih

theorem savedEntries_runLoop (rounds : List FetchRound) :
    ∀ offset total, savedEntries (runLoop rounds offset total).1 =
      expectedSaves rounds total := by
  induction rounds with
  | nil => intro offset total; simp [runLoop, expectedSaves, savedEntries]
  | cons r rest ih =>
      intro offset total
      by_cases hr : r.msgs = []
      · simp [runLoop, expectedSaves, hr, savedEntries]
      · simp only [runLoop, expectedSaves, hr, if_neg, ite_false]
        rw [savedEntries_append, runRound]
        simp only []
        rw [savedEntries_runBatches, ih]

theorem map_fst_pair (l : List Nat) (t : Nat) :
    (l.map (fun i => (i, t))).map Prod.fst = l := by
  induction l with
  | nil => simp
  | cons a rest ih => simp [ih]

theorem expectedSaves_fst (rounds : List FetchRound) :
    ∀ total, (expectedSaves rounds total).map Prod.fst = expectedIds rounds := by
  induction rounds with
  | nil => intro total; simp [expectedSaves, expectedIds]
  | cons r rest ih =>
      intro total
      by_cases hr : r.msgs = []
      · simp [expectedSaves, expectedIds, hr]
      · simp only [expectedSaves, expectedIds, hr, ite_false, if_neg,
          List.map_append, ih]
        congr 1
        exact map_fst_pair _ _

theorem lastIdOf_mem (b : List MsgRec) (hb : b ≠ []) :
    ∃ m ∈ b, m.id = lastIdOf b := by
  rw [lastIdOf, List.getLast?_eq_getLast b hb]
  exact ⟨b.getLast hb, List.getLast_mem hb, rfl⟩

theorem runBatches_bounds (sched : Nat → Nat × SendOutcome)
    (bs : List (List MsgRec)) :
    ∀ k offset total,
      (bs.flatten).Pairwise (fun a b => a.id < b.id) →
      (∀ b ∈ bs, b ≠ []) →
      (∀ m ∈ bs.flatten, offset < m.id) →
      offset ≤ (runBatches bs sched k offset total).2 ∧
      (∀ i ∈ okLastIds bs sched k,
          offset < i ∧ i ≤ (runBatches bs sched k offset total).2) ∧
      (okLastIds bs sched k).Pairwise (· < ·) := by
  induction bs with
  | nil => intro k offset total _ _ _; simp [runBatches, okLastIds]
  | cons b rest ih =>
      intro k offset total hpw hne hgt
      have hbne : b ≠ [] := hne b (by simp)
      obtain ⟨mL, hmL, hmLid⟩ := lastIdOf_mem b hbne
      have hoffb : offset < lastIdOf b := by
        rw [← hmLid]
        exact hgt mL (by simp [hmL])
      have hsplit := List.pairwise_append.mp (by simpa using hpw :
        (b ++ rest.flatten).Pairwise (fun a b => a.id < b.id))
      have hcross : ∀ m ∈ rest.flatten, lastIdOf b < m.id := by
        intro m hm
        rw [← hmLid]
        exact hsplit.2.2 mL hmL m hm
      have hpwrest : (rest.flatten).Pairwise (fun a b => a.id < b.id) := hsplit.2.1
      have hnerest : ∀ c ∈ rest, c ≠ [] := fun c hc => hne c (by simp [hc])
      have hgtrest : ∀ m ∈ rest.flatten, offset < m.id := fun m hm =>
        hgt m (by simp [hm])
      rcases ho : (sched k).2 with _ | w | _
      · have ihok := ih (k + 1) (lastIdOf b) total hpwrest hnerest hcross
        rw [runBatches, okLastIds]
        simp only [ho, batchIter]
        refine ⟨by omega, ?_, ?_⟩
        · intro i hi
          rcases List.mem_cons.mp hi with hi | hi
          · subst hi
            exact ⟨hoffb, ihok.1⟩
          · have := ihok.2.1 i hi
            exact ⟨by omega, this.2⟩
        · refine List.pairwise_cons.mpr ⟨?_, ihok.2.2⟩
          intro i hi
          exact (ihok.2.1 i hi).1
      · have ihr := ih (k + 1) offset total hpwrest hnerest hgtrest
        rw [runBatches, okLastIds]
        simp only [ho, batchIter]
        exact ihr
      · have ihr := ih (k + 1) offset total hpwrest hnerest hgtrest
        rw [runBatches, okLastIds]
        simp only [ho, batchIter]
        exact ihr

theorem runLoop_saved_mono (rounds : List FetchRound) :
    ∀ offset total, Admissible offset rounds →
      (savedIds (runLoop rounds offset total).1).Pairwise (· < ·) ∧
      (∀ i ∈ savedIds (runLoop rounds offset total).1, offset < i) := by
  induction rounds with
  | nil =>
      intro offset total _
      simp [runLoop, savedIds, savedEntries]
  | cons r rest ih =>
      intro offset total hadm
      obtain ⟨hpw, hgt, hrest⟩ := hadm
      by_cases hr : r.msgs = []
      · simp [runLoop, hr, savedIds, savedEntries]
      · have hB : (0 : Nat) < BATCH_SIZE := by decide
        have htb : toBatches r.msgs BATCH_SIZE = chunks BATCH_SIZE r.msgs :=
          toBatches_eq_chunks r.msgs BATCH_SIZE hB
        have hflat : (toBatches r.msgs BATCH_SIZE).flatten = r.msgs := by
          rw [htb]; exact chunks_flatten BATCH_SIZE hB r.msgs
        have hne : ∀ c ∈ toBatches r.msgs BATCH_SIZE, c ≠ [] := by
          rw [htb]; exact chunks_ne_nil BATCH_SIZE r.msgs
        have hbounds := runBatches_bounds r.sched (toBatches r.msgs BATCH_SIZE)
          0 offset total (by rw [hflat]; exact hpw) hne
          (by rw [hflat]; exact hgt)
        have hoffeq : roundOffset r offset =
            (runBatches (toBatches r.msgs BATCH_SIZE) r.sched 0 offset total).2 :=
          runBatches_offset_total_indep _ r.sched 0 offset 0 total
        have ihrest := ih (roundOffset r offset) (total + r.msgs.length) hrest
        rw [runLoop]
        simp only [hr, if_neg, ite_false]
        have hids : savedIds ((runRound r offset total).1 ++
            (runLoop rest (runRound r offset total).2.1
              (runRound r offset total).2.2).1) =
            okLastIds (toBatches r.msgs BATCH_SIZE) r.sched 0 ++
              savedIds (runLoop rest (runRound r offset total).2.1
                (runRound r offset total).2.2).1 := by
          rw [savedIds, savedEntries_append, List.map_append]
          congr 1
          rw [runRound]
          simp only []
          rw [savedEntries_runBatches]
          exact map_fst_pair _ _
        rw [hids]
        have hrr1 : (runRound r offset total).2.1 = roundOffset r offset := by
          rw [runRound]; simp only []; rw [hoffeq]
        have hrr2 : (runRound r offset total).2.2 = total + r.msgs.length := by
          rw [runRound]
        rw [hrr1, hrr2]
        constructor
        · refine List.pairwise_append.mpr ⟨hbounds.2.2, ihrest.1, ?_⟩
          intro a ha b hb
          have hale : a ≤ (runBatches (toBatches r.msgs BATCH_SIZE) r.sched
              0 offset total).2 := (hbounds.2.1 a ha).2
          have hbgt := ihrest.2 b hb
          rw [hoffeq] at hbgt
          omega
        · intro i hi
          rcases List.mem_append.mp hi with hi | hi
          · exact (hbounds.2.1 i hi).1
          · have := ihrest.2 i hi
            rw [hoffeq] at this
            have hle := hbounds.1
            omega

end ChatBackup

/-! ## Claim theorems -/

namespace ChatBackup

/-- Claim C1, counterexample: in a concrete round of 21 messages whose
first batch (ids 1–20) raises `FloodWaitError` with `W = 30` under jitter
15, the full trace shows that the only send attempt carrying the first
batch's text is the failed one — the identical batch is never resent, the
loop instead sleeps `W + 15` plus the unconditional 15-second
between-batch sleep (total 60) and moves on to the *next* batch — and the
claimed suspension window `[W+12, W+20] = [42, 50]` excludes the actual
total suspension of 60 seconds. -/
theorem backup_chat_floodwait_retry_cex :
    cexFloodTrace =
      [Event.sendFailed (batchTexts cexBatch0), Event.sleep (30 + 15),
       Event.sleep 15, Event.sendText (batchTexts cexBatch1),
       Event.save 21 0, Event.sleep 12] ∧
    (cexFloodTrace.filter (isSendOf (batchTexts cexBatch0))).length = 1 ∧
    ¬ (30 + 12 ≤ 45 + 15 ∧ 45 + 15 ≤ 30 + 20) := by
  decide

/-- Claim C1, amended: when the send of a batch raises `FloodWaitError`
with wait `W` in an iteration whose jitter is `j ∈ [12, 20]`, the loop
sleeps `W + j` seconds (line 126) and then the unconditional `j`-second
between-batch sleep (line 132) — a total suspension of `W + 2j ∈
[W+24, W+40]` — persists no progress and leaves the offset unchanged for
that batch, and then continues with the *next* batch of the fetch; the
failed batch is not resent. -/
theorem backup_chat_floodwait_amended (b : List MsgRec)
    (bs : List (List MsgRec)) (sched : Nat → Nat × SendOutcome)
    (k offset total w j : Nat) (hj1 : 12 ≤ j) (hj2 : j ≤ 20)
    (hs : sched k = (j, SendOutcome.floodWait w)) :
    (runBatches (b :: bs) sched k offset total).1 =
      Event.sendFailed (batchTexts b) :: Event.sleep (w + j) :: Event.sleep j ::
        (runBatches bs sched (k + 1) offset total).1 ∧
    (runBatches (b :: bs) sched k offset total).2 =
      (runBatches bs sched (k + 1) offset total).2 ∧
    savedEntries (batchIter b j (SendOutcome.floodWait w) offset total).1 = [] ∧
    (batchIter b j (SendOutcome.floodWait w) offset total).2 = offset ∧
    w + 24 ≤ (w + j) + j ∧ (w + j) + j ≤ w + 40 := by
  refine ⟨?_, ?_, ?_, ?_, by omega, by omega⟩ <;>
    simp [runBatches, batchIter, savedEntries, hs]

/-- Witness for `backup_chat_floodwait_amended` at `w = 5`, `j = 12`, a
one-record batch and no further batches. -/
theorem backup_chat_floodwait_amended_witness :
    12 ≤ 12 ∧ 12 ≤ 20 ∧
    ((runBatches ([⟨1, "a", none⟩] :: [])
        (fun _ => (12, SendOutcome.floodWait 5)) 0 3 0).1 =
      Event.sendFailed (batchTexts [⟨1, "a", none⟩]) :: Event.sleep (5 + 12) ::
        Event.sleep 12 ::
        (runBatches [] (fun _ => (12, SendOutcome.floodWait 5)) 1 3 0).1 ∧
    (runBatches ([⟨1, "a", none⟩] :: [])
        (fun _ => (12, SendOutcome.floodWait 5)) 0 3 0).2 =
      (runBatches [] (fun _ => (12, SendOutcome.floodWait 5)) 1 3 0).2 ∧
    savedEntries
        (batchIter [⟨1, "a", none⟩] 12 (SendOutcome.floodWait 5) 3 0).1 = [] ∧
    (batchIter [⟨1, "a", none⟩] 12 (SendOutcome.floodWait 5) 3 0).2 = 3 ∧
    5 + 24 ≤ (5 + 12) + 12 ∧ (5 + 12) + 12 ≤ 5 + 40) :=
  ⟨by decide, by decide,
    backup_chat_floodwait_amended [⟨1, "a", none⟩] []
      (fun _ => (12, SendOutcome.floodWait 5)) 0 3 0 5 12
      (by decide) (by decide) rfl⟩

/-- Claim C2, evaluated at the failing input: in a concrete round of 21
messages whose first batch (ids 1–20) raises a generic `RPCError`, the
loop does sleep the fixed `RETRY_DELAY = 70` seconds, but it does *not*
retry the batch: the only send attempt carrying the first batch's text is
the failed one, the next send is the next batch (id 21), and the round
ends with `offset_id = 21`, skipping messages 1–20 for good — contradicting
both the claim and the code's own log message "retrying after 70 sec". -/
theorem backup_chat_rpc_skips_batch :
    cexRpcTrace =
      [Event.sendFailed (batchTexts cexBatch0), Event.sleep RETRY_DELAY,
       Event.sleep 12, Event.sendText (batchTexts cexBatch1),
       Event.save 21 0, Event.sleep 12] ∧
    (cexRpcTrace.filter (isSendOf (batchTexts cexBatch0))).length = 1 ∧
    (runRound ⟨cexMsgs, cexRpcSched⟩ 0 0).2.1 = 21 := by
  decide

/-- Claim C3: under the client's fetch guarantees (`Admissible`), the
sequence of persisted `last_message_id` values of a run is exactly the
sequence of last ids of the successfully sent batches, in order — so at
every point the persisted id is the last id of the most recently
successfully sent batch and never an id from a failed batch — and that
sequence is monotonically non-decreasing. -/
theorem backup_chat_persisted_ids (rounds : List FetchRound)
    (offset total : Nat) (h : Admissible offset rounds) :
    savedIds (runLoop rounds offset total).1 = expectedIds rounds ∧
    (savedIds (runLoop rounds offset total).1).Pairwise (· ≤ ·) := by
  constructor
  · rw [savedIds, savedEntries_runLoop, expectedSaves_fst]
  · exact List.Pairwise.imp (fun hab => Nat.le_of_lt hab)
      (runLoop_saved_mono rounds offset total h).1

/-- Witness for `backup_chat_persisted_ids`: a one-round run over a single
message with id 1, fetched from offset 0. -/
theorem backup_chat_persisted_ids_witness :
    Admissible 0 [⟨[⟨1, "a", none⟩], fun _ => (12, SendOutcome.ok)⟩] ∧
    (savedIds (runLoop [⟨[⟨1, "a", none⟩], fun _ => (12, SendOutcome.ok)⟩] 0 0).1 =
        expectedIds [⟨[⟨1, "a", none⟩], fun _ => (12, SendOutcome.ok)⟩] ∧
      (savedIds (runLoop [⟨[⟨1, "a", none⟩],
          fun _ => (12, SendOutcome.ok)⟩] 0 0).1).Pairwise (· ≤ ·)) := by
  have hadm : Admissible 0 [⟨[⟨1, "a", none⟩], fun _ => (12, SendOutcome.ok)⟩] :=
    ⟨by decide, by decide, trivial⟩
  exact ⟨hadm, backup_chat_persisted_ids _ 0 0 hadm⟩

/-- Claim C4: saving a progress marker `(X, N)` and reloading it yields
exactly `(X, N)`, and loading a missing or non-JSON progress file yields
`(None, None)` (the embedded `load_last_message_id` is total, so it never
raises). -/
theorem progress_file_roundtrip (X N : Int) :
    load_last_message_id (save_last_message_id X N) =
      (some (JVal.jint X), some (JVal.jint N)) ∧
    load_last_message_id FileState.missing = (none, none) ∧
    load_last_message_id FileState.notJson = (none, none) := by
  refine ⟨?_, rfl, rfl⟩
  simp [load_last_message_id, save_last_message_id, dictGet, List.find?]

/-- Claim C5: for a fetch of `N > 0` messages and batch size `B > 0`, the
slice loop partitions the fetched list into exactly `⌈N/B⌉ = (N+B-1)/B`
consecutive batches, each of size at most `B`, whose concatenation is the
original list (covering every message in order exactly once). -/
theorem backup_chat_batch_partition (msgs : List MsgRec) (B : Nat)
    (hB : 0 < B) (_hN : 0 < msgs.length) :
    (toBatches msgs B).length = (msgs.length + B - 1) / B ∧
    (∀ b ∈ toBatches msgs B, b.length ≤ B) ∧
    (toBatches msgs B).flatten = msgs := by
  rw [toBatches_eq_chunks msgs B hB]
  exact ⟨chunks_length B hB msgs, chunks_length_le B msgs,
    chunks_flatten B hB msgs⟩

/-- Witness for `backup_chat_batch_partition`: three messages with batch
size two give two batches `[[1, 2], [3]]`. -/
theorem backup_chat_batch_partition_witness :
    0 < 2 ∧ 0 < ([⟨1, "a", none⟩, ⟨2, "b", none⟩, ⟨3, "c", none⟩] :
        List MsgRec).length ∧
    ((toBatches [⟨1, "a", none⟩, ⟨2, "b", none⟩, ⟨3, "c", none⟩] 2).length =
        (([⟨1, "a", none⟩, ⟨2, "b", none⟩, ⟨3, "c", none⟩] :
          List MsgRec).length + 2 - 1) / 2 ∧
      (∀ b ∈ toBatches [⟨1, "a", none⟩, ⟨2, "b", none⟩, ⟨3, "c", none⟩] 2,
        b.length ≤ 2) ∧
      (toBatches [⟨1, "a", none⟩, ⟨2, "b", none⟩, ⟨3, "c", none⟩] 2).flatten =
        [⟨1, "a", none⟩, ⟨2, "b", none⟩, ⟨3, "c", none⟩]) :=
  ⟨by decide, by decide,
    backup_chat_batch_partition [⟨1, "a", none⟩, ⟨2, "b", none⟩, ⟨3, "c", none⟩]
      2 (by decide) (by decide)⟩

/-- Claim C9: in a successfully sent batch, every record carrying media
produces the generic `[Media from <id>]` notice as its *first* follow-up
send, before any type-specific follow-up, which appears inside the batch
trace after the batch text send; for live-location and webpage-preview
records this makes two follow-up messages, not one. -/
theorem media_notice_precedes_specific (batch : List MsgRec)
    (j offset total : Nat) (m : MsgRec) (hm : m ∈ batch) (med : Media)
    (hmed : m.media = some med) :
    (∃ pre post, (batchIter batch j SendOutcome.ok offset total).1 =
        (Event.sendText (batchTexts batch) :: pre) ++ mediaFollowups m ++ post) ∧
    (mediaFollowups m).head? =
      some (Event.sendText ("[Media from " ++ toString m.id ++ "]")) ∧
    (med = Media.geoLive → (mediaFollowups m).length = 2) ∧
    (∀ u, med = Media.webPage u → (mediaFollowups m).length = 2) := by
  refine ⟨?_, ?_, ?_, ?_⟩
  · obtain ⟨s, t, hst⟩ := List.append_of_mem hm
    refine ⟨s.flatMap mediaFollowups,
      t.flatMap mediaFollowups ++ [Event.save (lastIdOf batch) total,
        Event.sleep j], ?_⟩
    rw [batchIter]
    simp only []
    rw [hst, List.flatMap_append, List.flatMap_cons]
    simp [List.append_assoc]
  · simp [mediaFollowups, hmed]
  · intro h
    subst h
    simp [mediaFollowups, hmed]
  · intro u h
    subst h
    rcases u with _ | url <;> simp [mediaFollowups, hmed]

/-- Witness for `media_notice_precedes_specific`: a one-record batch whose
record with id 3 carries a live location. -/
theorem media_notice_precedes_specific_witness :
    (⟨3, "x", some Media.geoLive⟩ : MsgRec) ∈
        ([⟨3, "x", some Media.geoLive⟩] : List MsgRec) ∧
    (⟨3, "x", some Media.geoLive⟩ : MsgRec).media = some Media.geoLive ∧
    ((∃ pre post,
        (batchIter [⟨3, "x", some Media.geoLive⟩] 12 SendOutcome.ok 0 0).1 =
          (Event.sendText (batchTexts [⟨3, "x", some Media.geoLive⟩]) :: pre) ++
            mediaFollowups ⟨3, "x", some Media.geoLive⟩ ++ post) ∧
      (mediaFollowups ⟨3, "x", some Media.geoLive⟩).head? =
        some (Event.sendText ("[Media from " ++
          toString (⟨3, "x", some Media.geoLive⟩ : MsgRec).id ++ "]")) ∧
      (Media.geoLive = Media.geoLive →
        (mediaFollowups ⟨3, "x", some Media.geoLive⟩).length = 2) ∧
      (∀ u, Media.geoLive = Media.webPage u →
        (mediaFollowups ⟨3, "x", some Media.geoLive⟩).length = 2)) :=
  ⟨by decide, rfl,
    media_notice_precedes_specific [⟨3, "x", some Media.geoLive⟩] 12 0 0
      ⟨3, "x", some Media.geoLive⟩ (by decide) Media.geoLive rfl⟩

/-- Claim C10: the `(last_message_id, total_processed)` pairs persisted by
a run are exactly `expectedSaves`, in which every checkpoint written during
a fetch carries the value `total_processed` had when the fetch began —
the sum of the initial counter and the sizes of *prior* fetches only —
because the counter is incremented by the fetched count only after the
whole batch loop of the fetch finishes. -/
theorem checkpoint_total_prior_fetches (rounds : List FetchRound)
    (offset total : Nat) :
    savedEntries (runLoop rounds offset total).1 = expectedSaves rounds total :=
  savedEntries_runLoop rounds offset total

end ChatBackup

namespace Uploader

/-- Claim C6: the manifest line with URL, title, thumbnail timestamp and
end timestamp parses to the full entry and a line with only a URL parses
with all optional fields `None` (first conjunct, which also drops the
concrete instance `"not a url"`); and the parser drops *every* line whose
first field is not a URL: any row whose stripped first field fails
`URL_RE` parses to `None` (second conjunct), and any line whose row
parses to `None` contributes nothing to the manifest, wherever it occurs
(third conjunct).  The last conjunct checks that `"not a url"` is such a
first field. -/
theorem parse_manifest_spec :
    parse_manifest
        ["https://x/y.mp4,My Title,00:00:05,00:01:00", "not a url",
         "https://x/y.mp4"] =
      [⟨"https://x/y.mp4", some "My Title", some "00:00:05", some "00:01:00"⟩,
       ⟨"https://x/y.mp4", none, none, none⟩] ∧
    (∀ (first : String) (rest : List String),
      urlMatch (pyStrip first) = false → parseRow (first :: rest) = none) ∧
    (∀ (pre post : List String) (line : String),
      parseRow (csvRow line) = none →
        parse_manifest (pre ++ line :: post) = parse_manifest (pre ++ post)) ∧
    urlMatch (pyStrip "not a url") = false := by
  refine ⟨by decide, ?_, ?_, by decide⟩
  · intro first rest h
    simp [parseRow, h]
  · intro pre post line h
    simp [parse_manifest, List.filterMap_append, List.filterMap_cons, h]

/-- Witness for `parse_manifest_spec`: the universal clauses applied to a
concrete non-URL first field (`"ftp://z"` — `URL_RE` only accepts `http`
or `https`) and to a concrete manifest containing that line. -/
theorem parse_manifest_spec_witness :
    urlMatch (pyStrip "ftp://z") = false ∧
    parseRow ("ftp://z" :: ["t"]) = none ∧
    parseRow (csvRow "ftp://z,t") = none ∧
    parse_manifest (["https://a"] ++ "ftp://z,t" :: ["https://b"]) =
      parse_manifest (["https://a"] ++ ["https://b"]) := by
  refine ⟨by decide, parse_manifest_spec.2.1 "ftp://z" ["t"] (by decide),
    by decide, parse_manifest_spec.2.2.1 ["https://a"] ["https://b"]
      "ftp://z,t" (by decide)⟩

/-- Claim C7: a video job whose download raises `asyncio.TimeoutError`
writes exactly one `TIMEOUT,<url>,<title>` log line, never calls
`client.send_file`, lets no exception escape, and the runner's loop
processes the remaining manifest entries exactly as before. -/
theorem process_video_timeout_logging (url : String) (title : Option String)
    (env : JobEnv) (h : env.dl = DlResult.timeout) :
    (process_video url title env).logs =
      ["TIMEOUT," ++ url ++ "," ++ titleOrEmpty title ++ "\n"] ∧
    (process_video url title env).uploadAttempted = false ∧
    (process_video url title env).uncaught = none ∧
    ∀ (e : Entry) (rest : List Entry) (envs : Nat → JobEnv),
      runAll (e :: rest) envs =
        process_video e.url e.title (envs 0) ::
          runAll rest (fun i => envs (i + 1)) := by
  refine ⟨?_, ?_, ?_, fun e rest envs => rfl⟩ <;>
    simp [process_video, jobBody, h]

/-- Witness for `process_video_timeout_logging` at a concrete job whose
download times out. -/
theorem process_video_timeout_logging_witness :
    (JobEnv.mk DlResult.timeout (TrimResult.ok "v" "t") UpResult.ok).dl =
      DlResult.timeout ∧
    ((process_video "https://u" (some "T")
        (JobEnv.mk DlResult.timeout (TrimResult.ok "v" "t") UpResult.ok)).logs =
      ["TIMEOUT," ++ "https://u" ++ "," ++ titleOrEmpty (some "T") ++ "\n"] ∧
    (process_video "https://u" (some "T")
        (JobEnv.mk DlResult.timeout (TrimResult.ok "v" "t")
          UpResult.ok)).uploadAttempted = false ∧
    (process_video "https://u" (some "T")
        (JobEnv.mk DlResult.timeout (TrimResult.ok "v" "t")
          UpResult.ok)).uncaught = none ∧
    ∀ (e : Entry) (rest : List Entry) (envs : Nat → JobEnv),
      runAll (e :: rest) envs =
        process_video e.url e.title (envs 0) ::
          runAll rest (fun i => envs (i + 1))) :=
  ⟨rfl, process_video_timeout_logging "https://u" (some "T")
    (JobEnv.mk DlResult.timeout (TrimResult.ok "v" "t") UpResult.ok) rfl⟩

/-- Claim C8: every file created by a job's download step is unlinked by
the job's `finally` block, whatever the job's outcome (success, timeout,
Telegram error, or any other failure) — the deletion happens inside
`process_video`, hence before the runner's loop reaches the next manifest
entry. -/
theorem process_video_deletes_artifact (url : String) (title : Option String)
    (env : JobEnv) (p : String)
    (hp : p ∈ (process_video url title env).downloadCreated) :
    p ∈ (process_video url title env).deleted := by
  obtain ⟨dl, trim, up⟩ := env
  rcases dl with path | _ | m <;> rcases trim with ⟨v, t⟩ | m2 <;>
    rcases up with _ | m3 | m3 <;>
    simp_all [process_video, jobBody]

/-- Witness for `process_video_deletes_artifact`: a successful job whose
download created `v.mp4`. -/
theorem process_video_deletes_artifact_witness :
    "v.mp4" ∈ (process_video "https://u" none
        (JobEnv.mk (DlResult.ok "v.mp4") (TrimResult.ok "v.mp4" "t.jpg")
          UpResult.ok)).downloadCreated ∧
    "v.mp4" ∈ (process_video "https://u" none
        (JobEnv.mk (DlResult.ok "v.mp4") (TrimResult.ok "v.mp4" "t.jpg")
          UpResult.ok)).deleted :=
  ⟨by decide,
    process_video_deletes_artifact "https://u" none
      (JobEnv.mk (DlResult.ok "v.mp4") (TrimResult.ok "v.mp4" "t.jpg")
        UpResult.ok) "v.mp4" (by decide)⟩

end Uploader
